import Mathlib

set_option maxRecDepth 40000

/-!
Verification of the Windows Prefetch (SCCA) decoder of `dissect.target`
(`dissect/target/plugins/os/windows/prefetch.py`).

The decoder is shallowly embedded: byte buffers are `List Nat` (each element a
byte value), stream reads become pure slicing operations, `cstruct` structure
reads become `readExact` (which fails, like cstruct's `EOFError`, when fewer
bytes remain than the structure needs), plain `file.read` becomes the
truncating `readBytes`, and Python exceptions become the `PrefetchError`
taxonomy of the specification.
-/

namespace PrefetchSpec

/-- Python `file.read` semantics on an in-memory buffer: reading `len` bytes at
`off` returns the available bytes, silently truncated at the end of the
buffer. -/
def readBytes (buf : List Nat) (off len : Nat) : List Nat :=
  (buf.drop off).take len

/-- `dissect.cstruct` stream-read semantics: reading a structure of `len`
bytes at `off` fails (EOFError) unless all `len` bytes are present. -/
def readExact (buf : List Nat) (off len : Nat) : Option (List Nat) :=
  if off + len ≤ buf.length then some (readBytes buf off len) else none

/-- Little-endian interpretation of a byte list. -/
def leNat (bs : List Nat) : Nat :=
  bs.foldr (fun b acc => b + 256 * acc) 0

/-- Unsigned 32-bit little-endian field at offset `k` of an in-memory slice. -/
def fieldU32 (s : List Nat) (k : Nat) : Nat :=
  leNat ((s.drop k).take 4)

/-- Unsigned 64-bit little-endian field at offset `k` of an in-memory slice. -/
def fieldU64 (s : List Nat) (k : Nat) : Nat :=
  leNat ((s.drop k).take 8)

/-- Unsigned 32-bit little-endian value read directly at buffer offset `off`. -/
def u32At (buf : List Nat) (off : Nat) : Nat :=
  leNat (readBytes buf off 4)

/-- Unsigned 64-bit little-endian value read directly at buffer offset `off`. -/
def u64At (buf : List Nat) (off : Nat) : Nat :=
  leNat (readBytes buf off 8)

/-! ### UTF-16-LE decoding

Python's `utf-16-le` codec, both strict (`bytes.decode("utf-16-le")`, raising
`UnicodeDecodeError` on invalid input) and lenient
(`bytes.decode("utf-16-le", errors="ignore")`, dropping invalid sequences).
Decoded strings are lists of Unicode code points. -/

/-- Pair up bytes into 16-bit little-endian code units; `none` when a lone
trailing byte remains (strict decoding rejects it). -/
def toUnits : List Nat → Option (List Nat)
  | [] => some []
  | [_] => none
  | b0 :: b1 :: rest => (toUnits rest).map (fun us => (b0 + 256 * b1) :: us)

/-- Pair up bytes into 16-bit little-endian code units, dropping a lone
trailing byte (lenient decoding ignores it). -/
def toUnitsLossy : List Nat → List Nat
  | b0 :: b1 :: rest => (b0 + 256 * b1) :: toUnitsLossy rest
  | _ => []

/-- High-surrogate code unit test. -/
def isHigh (u : Nat) : Bool :=
  decide (0xD800 ≤ u ∧ u ≤ 0xDBFF)

/-- Low-surrogate code unit test. -/
def isLow (u : Nat) : Bool :=
  decide (0xDC00 ≤ u ∧ u ≤ 0xDFFF)

/-- Code point assembled from a surrogate pair. -/
def surrogatePair (u1 u2 : Nat) : Nat :=
  0x10000 + (u1 - 0xD800) * 0x400 + (u2 - 0xDC00)

/-- Strict UTF-16 code-unit decoding: unpaired surrogates are rejected. -/
def decodeUnitsStrict : List Nat → Option (List Nat)
  | [] => some []
  | [u] =>
    if isHigh u || isLow u then none else some [u]
  | u :: u2 :: rest =>
    if isHigh u then
      if isLow u2 then (decodeUnitsStrict rest).map (fun cs => surrogatePair u u2 :: cs)
      else none
    else if isLow u then none
    else (decodeUnitsStrict (u2 :: rest)).map (fun cs => u :: cs)

/-- Lenient UTF-16 code-unit decoding: unpaired surrogates are dropped. -/
def decodeUnitsIgnore : List Nat → List Nat
  | [] => []
  | [u] =>
    if isHigh u || isLow u then [] else [u]
  | u :: u2 :: rest =>
    if isHigh u then
      if isLow u2 then surrogatePair u u2 :: decodeUnitsIgnore rest
      else decodeUnitsIgnore (u2 :: rest)
    else if isLow u then decodeUnitsIgnore (u2 :: rest)
    else u :: decodeUnitsIgnore (u2 :: rest)

/-- `bytes.decode("utf-16-le")`: strict decoding, `none` on invalid input. -/
def utf16leStrict (bs : List Nat) : Option (List Nat) :=
  match toUnits bs with
  | none => none
  | some us => decodeUnitsStrict us

/-- `bytes.decode("utf-16-le", errors="ignore")`: lenient decoding, total. -/
def utf16leIgnore (bs : List Nat) : List Nat :=
  decodeUnitsIgnore (toUnitsLossy bs)

/-! ### Timestamps

`dissect.util.ts.wintimestamp` is an external collaborator converting a
Windows 100ns tick count to a UTC datetime; it is modelled as an abstract
injective wrapper around the tick count. -/

/-- A UTC instant, represented by its Windows 100ns tick count. -/
structure Datetime where
  ticks : Nat
deriving Repr, DecidableEq

/-- `dissect.util.ts.wintimestamp`, as an abstract injective conversion. -/
def wintimestamp (t : Nat) : Datetime := ⟨t⟩

/-! ### The binary layout catalog (`prefetch_def` cstruct definitions) -/

/-- `struct PREFETCH_HEADER` (84 bytes). -/
structure PREFETCH_HEADER where
  version : Nat
  signature : List Nat
  unknown : Nat
  size : Nat
  name : List Nat
  hash : Nat
  flag : Nat
deriving Repr, DecidableEq

/-- `struct FILE_INFORMATION_17` (52 bytes). -/
structure FILE_INFORMATION_17 where
  metrics_array_offset : Nat
  number_of_file_metrics_entries : Nat
  trace_chain_array_offset : Nat
  number_of_trace_chain_array_entries : Nat
  filename_strings_offset : Nat
  filename_strings_size : Nat
  volumes_information_offset : Nat
  number_of_volumes : Nat
  volumes_information_size : Nat
  last_run_time : Nat
  unknown0 : Nat
  run_count : Nat
  unknown1 : Nat
deriving Repr, DecidableEq

/-- `struct FILE_INFORMATION_23` (160 bytes). -/
structure FILE_INFORMATION_23 where
  metrics_array_offset : Nat
  number_of_file_metrics_entries : Nat
  trace_chain_array_offset : Nat
  number_of_trace_chain_array_entries : Nat
  filename_strings_offset : Nat
  filename_strings_size : Nat
  volumes_information_offset : Nat
  number_of_volumes : Nat
  volumes_information_size : Nat
  unknown : List Nat
  last_run_time : Nat
  last_run_remains : List Nat
  run_count : Nat
  unknown0 : Nat
  unknown1 : Nat
  unknown2 : List Nat
deriving Repr, DecidableEq

/-- `struct FILE_INFORMATION_26` (224 bytes), used by versions 30 and 31. -/
structure FILE_INFORMATION_26 where
  metrics_array_offset : Nat
  number_of_file_metrics_entries : Nat
  trace_chain_array_offset : Nat
  number_of_trace_chain_array_entries : Nat
  filename_strings_offset : Nat
  filename_strings_size : Nat
  volumes_information_offset : Nat
  number_of_volumes : Nat
  volumes_information_size : Nat
  unknown0 : List Nat
  last_run_time : Nat
  last_run_remains : List Nat
  unknown1 : List Nat
  run_count : Nat
  unknown2 : Nat
  unknown3 : Nat
  unknown4 : List Nat
deriving Repr, DecidableEq

/-- `struct FILE_METRICS_ARRAY_ENTRY_17` (20 bytes). -/
structure FILE_METRICS_ARRAY_ENTRY_17 where
  start_time : Nat
  duration : Nat
  filename_string_offset : Nat
  filename_string_number_of_characters : Nat
  flags : Nat
deriving Repr, DecidableEq

/-- `struct FILE_METRICS_ARRAY_ENTRY_23` (32 bytes). -/
structure FILE_METRICS_ARRAY_ENTRY_23 where
  start_time : Nat
  duration : Nat
  average_duration : Nat
  filename_string_offset : Nat
  filename_string_number_of_characters : Nat
  flags : Nat
  ntfs_reference : Nat
deriving Repr, DecidableEq

/-- The version-specific file-information block, as selected by
`prefetch_version_structs`. -/
inductive FileInfo where
  | v17 (fi : FILE_INFORMATION_17)
  | v23 (fi : FILE_INFORMATION_23)
  | v26 (fi : FILE_INFORMATION_26)
deriving Repr, DecidableEq

/-- The version-specific metrics-array entry, as selected by
`prefetch_version_structs`. -/
inductive MetricsEntry where
  | m17 (e : FILE_METRICS_ARRAY_ENTRY_17)
  | m23 (e : FILE_METRICS_ARRAY_ENTRY_23)
deriving Repr, DecidableEq

/-- `metrics_array_offset` of the decoded file-information block. -/
def FileInfo.metrics_array_offset : FileInfo → Nat
  | .v17 fi => fi.metrics_array_offset
  | .v23 fi => fi.metrics_array_offset
  | .v26 fi => fi.metrics_array_offset

/-- `number_of_file_metrics_entries` of the decoded file-information block. -/
def FileInfo.number_of_file_metrics_entries : FileInfo → Nat
  | .v17 fi => fi.number_of_file_metrics_entries
  | .v23 fi => fi.number_of_file_metrics_entries
  | .v26 fi => fi.number_of_file_metrics_entries

/-- `filename_strings_offset` of the decoded file-information block. -/
def FileInfo.filename_strings_offset : FileInfo → Nat
  | .v17 fi => fi.filename_strings_offset
  | .v23 fi => fi.filename_strings_offset
  | .v26 fi => fi.filename_strings_offset

/-- `last_run_time` of the decoded file-information block. -/
def FileInfo.last_run_time : FileInfo → Nat
  | .v17 fi => fi.last_run_time
  | .v23 fi => fi.last_run_time
  | .v26 fi => fi.last_run_time

/-- `run_count` of the decoded file-information block. -/
def FileInfo.run_count : FileInfo → Nat
  | .v17 fi => fi.run_count
  | .v23 fi => fi.run_count
  | .v26 fi => fi.run_count

/-- `filename_string_offset` of a metrics entry. -/
def MetricsEntry.filename_string_offset : MetricsEntry → Nat
  | .m17 e => e.filename_string_offset
  | .m23 e => e.filename_string_offset

/-- `filename_string_number_of_characters` of a metrics entry. -/
def MetricsEntry.filename_string_number_of_characters : MetricsEntry → Nat
  | .m17 e => e.filename_string_number_of_characters
  | .m23 e => e.filename_string_number_of_characters

/-! ### Error taxonomy

Python exception kinds raised during a decode, per the specification's
taxonomy: `EOFError` from cstruct reads becomes `truncated`
(TruncatedOrOutOfBounds), `NotImplementedError` from `Prefetch.identify`
becomes `unsupportedVersion`, `UnicodeDecodeError` from strict filename
decoding becomes `encodingError` (EncodingFailure), and a failure of the
`lzxpress_huffman.decompress` collaborator becomes `decompressionFailure`. -/

inductive PrefetchError where
  | truncated
  | unsupportedVersion
  | encodingError
  | decompressionFailure
deriving Repr, DecidableEq

/-! ### The structured decoder (`Prefetch.__init__` / `identify` / `parse`) -/

/-- The set of versions in `prefetch_version_structs`. -/
def supportedVersion (v : Nat) : Prop :=
  v = 17 ∨ v = 23 ∨ v = 30 ∨ v = 31

instance (v : Nat) : Decidable (supportedVersion v) := by
  unfold supportedVersion; infer_instance

/-- Byte size of the version-specific file-information structure. -/
def fileInfoSize (v : Nat) : Nat :=
  if v = 17 then 52 else if v = 23 then 160 else 224

/-- Byte size of the version-specific metrics-array entry structure. -/
def metricsEntrySize (v : Nat) : Nat :=
  if v = 17 then 20 else 32

/-- Offset of `filename_string_offset` within a metrics-array entry. -/
def entryFnOffOff (v : Nat) : Nat :=
  if v = 17 then 8 else 12

/-- Offset of `filename_string_number_of_characters` within a metrics-array
entry. -/
def entryChrOff (v : Nat) : Nat :=
  if v = 17 then 12 else 16

/-- Parse `PREFETCH_HEADER` from the 84 bytes at the start of the buffer. -/
def parseHeader (buf : List Nat) : Except PrefetchError PREFETCH_HEADER :=
  match readExact buf 0 84 with
  | none => .error .truncated
  | some s =>
    .ok {
      version := fieldU32 s 0
      signature := (s.drop 4).take 4
      unknown := fieldU32 s 8
      size := fieldU32 s 12
      name := (s.drop 16).take 60
      hash := fieldU32 s 76
      flag := fieldU32 s 80 }

/-- Decode the version-specific file-information structure from its
in-memory slice. -/
def parseFileInfo (v : Nat) (s : List Nat) : FileInfo :=
  if v = 17 then
    .v17 {
      metrics_array_offset := fieldU32 s 0
      number_of_file_metrics_entries := fieldU32 s 4
      trace_chain_array_offset := fieldU32 s 8
      number_of_trace_chain_array_entries := fieldU32 s 12
      filename_strings_offset := fieldU32 s 16
      filename_strings_size := fieldU32 s 20
      volumes_information_offset := fieldU32 s 24
      number_of_volumes := fieldU32 s 28
      volumes_information_size := fieldU32 s 32
      last_run_time := fieldU32 s 36
      unknown0 := fieldU32 s 40
      run_count := fieldU32 s 44
      unknown1 := fieldU32 s 48 }
  else if v = 23 then
    .v23 {
      metrics_array_offset := fieldU32 s 0
      number_of_file_metrics_entries := fieldU32 s 4
      trace_chain_array_offset := fieldU32 s 8
      number_of_trace_chain_array_entries := fieldU32 s 12
      filename_strings_offset := fieldU32 s 16
      filename_strings_size := fieldU32 s 20
      volumes_information_offset := fieldU32 s 24
      number_of_volumes := fieldU32 s 28
      volumes_information_size := fieldU32 s 32
      unknown := [fieldU32 s 36, fieldU32 s 40]
      last_run_time := fieldU64 s 44
      last_run_remains := [fieldU64 s 52, fieldU64 s 60]
      run_count := fieldU32 s 68
      unknown0 := fieldU32 s 72
      unknown1 := fieldU32 s 76
      unknown2 := (s.drop 80).take 80 }
  else
    .v26 {
      metrics_array_offset := fieldU32 s 0
      number_of_file_metrics_entries := fieldU32 s 4
      trace_chain_array_offset := fieldU32 s 8
      number_of_trace_chain_array_entries := fieldU32 s 12
      filename_strings_offset := fieldU32 s 16
      filename_strings_size := fieldU32 s 20
      volumes_information_offset := fieldU32 s 24
      number_of_volumes := fieldU32 s 28
      volumes_information_size := fieldU32 s 32
      unknown0 := [fieldU32 s 36, fieldU32 s 40]
      last_run_time := fieldU64 s 44
      last_run_remains :=
        [fieldU64 s 52, fieldU64 s 60, fieldU64 s 68, fieldU64 s 76,
         fieldU64 s 84, fieldU64 s 92, fieldU64 s 100]
      unknown1 := [fieldU64 s 108, fieldU64 s 116]
      run_count := fieldU32 s 124
      unknown2 := fieldU32 s 128
      unknown3 := fieldU32 s 132
      unknown4 := (s.drop 136).take 88 }

/-- Decode the version-specific metrics-array entry from its in-memory
slice. -/
def parseMetricsEntry (v : Nat) (s : List Nat) : MetricsEntry :=
  if v = 17 then
    .m17 {
      start_time := fieldU32 s 0
      duration := fieldU32 s 4
      filename_string_offset := fieldU32 s 8
      filename_string_number_of_characters := fieldU32 s 12
      flags := fieldU32 s 16 }
  else
    .m23 {
      start_time := fieldU32 s 0
      duration := fieldU32 s 4
      average_duration := fieldU32 s 8
      filename_string_offset := fieldU32 s 12
      filename_string_number_of_characters := fieldU32 s 16
      flags := fieldU32 s 20
      ntfs_reference := fieldU64 s 24 }

/-- `Prefetch.parse_metrics`: starting at stream position `pos`, read `n`
consecutive metrics entries; for each, resolve its filename with
`Prefetch.read_filename` (a plain, silently-truncating `read` of
`filename_string_number_of_characters * 2` bytes at
`filename_strings_offset + filename_string_offset`) and decode it strictly
as UTF-16-LE. -/
def parseMetricsLoop (buf : List Nat) (v fso : Nat) :
    Nat → Nat → Except PrefetchError (List (List Nat))
  | _, 0 => .ok []
  | pos, n + 1 =>
    match readExact buf pos (metricsEntrySize v) with
    | none => .error .truncated
    | some s =>
      let e := parseMetricsEntry v s
      let bytes := readBytes buf (fso + e.filename_string_offset)
        (e.filename_string_number_of_characters * 2)
      match utf16leStrict bytes with
      | none => .error .encodingError
      | some name =>
        (parseMetricsLoop buf v fso (pos + metricsEntrySize v) n).map
          (fun ms => name :: ms)

/-- The fully decoded `Prefetch` object state: outer header, version-specific
file-information block, and the ordered referenced-files list. -/
structure Prefetch where
  header : PREFETCH_HEADER
  fn : FileInfo
  metrics : List (List Nat)
deriving Repr, DecidableEq

/-- The structured decoder over a materialized buffer: read the outer header
at offset 0, validate the version (`Prefetch.identify`), seek to 84 and read
the version-specific file-information block, then parse the metrics array
(`Prefetch.parse`). -/
def decodeBuffer (buf : List Nat) : Except PrefetchError Prefetch :=
  match parseHeader buf with
  | .error e => .error e
  | .ok hdr =>
    if supportedVersion hdr.version then
      match readExact buf 84 (fileInfoSize hdr.version) with
      | none => .error .truncated
      | some s =>
        let fn := parseFileInfo hdr.version s
        match parseMetricsLoop buf hdr.version fn.filename_strings_offset
            fn.metrics_array_offset fn.number_of_file_metrics_entries with
        | .error e => .error e
        | .ok ms => .ok ⟨hdr, fn, ms⟩
    else .error .unsupportedVersion

/-- The compressed-envelope signature `b"MAM\x04"`. -/
def mamSignature : List Nat := [77, 65, 77, 4]

/-- The full `Prefetch.__init__` pipeline on a byte source: read the 8-byte
`PREFETCH_HEADER_DETECT`; when its signature is the compressed-envelope
signature, run the external `lzxpress_huffman.decompress` collaborator
(passed as the `decompress` parameter) on everything after the detect header
and decode the result; otherwise decode the raw buffer. -/
def decodePrefetch (decompress : List Nat → Option (List Nat))
    (buf : List Nat) : Except PrefetchError Prefetch :=
  if buf.length < 8 then .error .truncated
  else if buf.take 4 = mamSignature then
    match decompress (buf.drop 8) with
    | none => .error .decompressionFailure
    | some payload => decodeBuffer payload
  else decodeBuffer buf

/-! ### Result projection (`Prefetch` properties and `PrefetchPlugin.prefetch`) -/

/-- `Prefetch.latest_timestamp`. -/
def Prefetch.latest_timestamp (p : Prefetch) : Datetime :=
  wintimestamp p.fn.last_run_time

/-- `Prefetch.previous_timestamps`: the non-zero entries of
`last_run_remains`, converted in array order; version 17 has no
`last_run_remains` attribute and yields `[]`. -/
def Prefetch.previous_timestamps (p : Prefetch) : List Datetime :=
  match p.fn with
  | .v17 _ => []
  | .v23 fi => (fi.last_run_remains.filter (fun t => t != 0)).map wintimestamp
  | .v26 fi => (fi.last_run_remains.filter (fun t => t != 0)).map wintimestamp

/-- The emitted executable short name:
`scca.header.name.decode("utf-16-le", errors="ignore").split("\x00")[0]`. -/
def Prefetch.shortName (p : Prefetch) : List Nat :=
  (utf16leIgnore p.header.name).takeWhile (fun c => c != 0)

/-- One expanded-shape `PrefetchRecord`. -/
structure PrefetchRecord where
  ts : Datetime
  filename : List Nat
  prefetch : List Nat
  linkedfile : List Nat
  runcount : Nat
deriving Repr, DecidableEq

/-- One compact-shape `CompactPrefetchRecord`. -/
structure CompactPrefetchRecord where
  ts : Datetime
  filename : List Nat
  prefetch : List Nat
  linkedfiles : List (List Nat)
  runcount : Nat
  previousruns : List Datetime
deriving Repr, DecidableEq

/-- The records yielded for one decoded prefetch file in compact shape
(`PrefetchPlugin.prefetch` with `--compact`): a single record carrying the
full referenced-files list and the previous-run timestamps. -/
def compactRecords (p : Prefetch) (entryName : List Nat) :
    List CompactPrefetchRecord :=
  [{ ts := p.latest_timestamp
     filename := p.shortName
     prefetch := entryName
     linkedfiles := p.metrics
     runcount := p.fn.run_count
     previousruns := p.previous_timestamps }]

/-- The records yielded for one decoded prefetch file in expanded shape
(`PrefetchPlugin.prefetch` without `--compact`): for every linked file, one
record per run date in `[latest_timestamp] + previous_timestamps`. -/
def expandedRecords (p : Prefetch) (entryName : List Nat) :
    List PrefetchRecord :=
  (p.metrics.map (fun linked =>
    (p.latest_timestamp :: p.previous_timestamps).map (fun d =>
      { ts := d
        filename := p.shortName
        prefetch := entryName
        linkedfile := linked
        runcount := p.fn.run_count }))).flatten

/-! ### Concrete example buffers -/

/-- Little-endian 32-bit encoding of `n`. -/
def u32le (n : Nat) : List Nat :=
  [n % 256, n / 256 % 256, n / 65536 % 256, n / 16777216 % 256]

/-- Little-endian 64-bit encoding of `n`. -/
def u64le (n : Nat) : List Nat :=
  u32le (n % 4294967296) ++ u32le (n / 4294967296)

/-- `n` zero bytes. -/
def zeros (n : Nat) : List Nat := List.replicate n 0

/-- A valid version-17 buffer: name "EX", run count 5, last run tick 5, two
metrics entries whose filenames are "AB" and "CD". Metrics array at 136,
filename strings at 176, total size 184. -/
def exBuf17 : List Nat :=
  u32le 17 ++ [83, 67, 67, 65] ++ u32le 0 ++ u32le 184 ++
    ([69, 0, 88, 0] ++ zeros 56) ++ u32le 0 ++ u32le 0 ++
  (u32le 136 ++ u32le 2 ++ u32le 0 ++ u32le 0 ++ u32le 176 ++ u32le 8 ++
    u32le 0 ++ u32le 0 ++ u32le 0 ++ u32le 5 ++ u32le 0 ++ u32le 5 ++ u32le 0) ++
  (u32le 0 ++ u32le 0 ++ u32le 0 ++ u32le 2 ++ u32le 0) ++
  (u32le 0 ++ u32le 0 ++ u32le 4 ++ u32le 2 ++ u32le 0) ++
  [65, 0, 66, 0, 67, 0, 68, 0]

/-- A valid version-23 buffer: name "E", run count 3, last run tick 1000,
previous-run slots `[7, 0]`, one metrics entry whose filename is "A".
Metrics array at 244, filename strings at 276, total size 278. -/
def exBuf23 : List Nat :=
  u32le 23 ++ [83, 67, 67, 65] ++ u32le 0 ++ u32le 278 ++
    ([69, 0] ++ zeros 58) ++ u32le 0 ++ u32le 0 ++
  (u32le 244 ++ u32le 1 ++ u32le 0 ++ u32le 0 ++ u32le 276 ++ u32le 2 ++
    u32le 0 ++ u32le 0 ++ u32le 0 ++ u32le 0 ++ u32le 0 ++
    u64le 1000 ++ u64le 7 ++ u64le 0 ++
    u32le 3 ++ u32le 0 ++ u32le 0 ++ zeros 80) ++
  (u32le 0 ++ u32le 0 ++ u32le 0 ++ u32le 0 ++ u32le 1 ++ u32le 0 ++ u64le 0) ++
  [65, 0]

/-- A version-17 buffer whose single metrics entry declares a 10-character
filename, but whose filename-strings region holds only 4 bytes ("AB"): the
declared read passes the end of the buffer. Metrics array at 136, strings at
156, total size 160. -/
def exBufOverread : List Nat :=
  u32le 17 ++ [83, 67, 67, 65] ++ u32le 0 ++ u32le 160 ++
    ([69, 0, 88, 0] ++ zeros 56) ++ u32le 0 ++ u32le 0 ++
  (u32le 136 ++ u32le 1 ++ u32le 0 ++ u32le 0 ++ u32le 156 ++ u32le 4 ++
    u32le 0 ++ u32le 0 ++ u32le 0 ++ u32le 5 ++ u32le 0 ++ u32le 5 ++ u32le 0) ++
  (u32le 0 ++ u32le 0 ++ u32le 0 ++ u32le 10 ++ u32le 0) ++
  [65, 0, 66, 0]

/-- A valid version-17 buffer whose `filename_strings_offset` is 4, so its
single 2-character filename is read from bytes 4..8 — the outer header's
signature field. Total size 156. -/
def exBufAlias (sig : List Nat) : List Nat :=
  u32le 17 ++ sig ++ u32le 0 ++ u32le 156 ++
    ([69, 0, 88, 0] ++ zeros 56) ++ u32le 0 ++ u32le 0 ++
  (u32le 136 ++ u32le 1 ++ u32le 0 ++ u32le 0 ++ u32le 4 ++ u32le 4 ++
    u32le 0 ++ u32le 0 ++ u32le 0 ++ u32le 5 ++ u32le 0 ++ u32le 5 ++ u32le 0) ++
  (u32le 0 ++ u32le 0 ++ u32le 0 ++ u32le 2 ++ u32le 0)

/-- A valid version-17 buffer whose header name field starts with a lone
high surrogate (`0xD800`) followed by "A": invalid as strict UTF-16, decoded
leniently. One metrics entry with filename "A". Total size 158. -/
def exBufBadName : List Nat :=
  u32le 17 ++ [83, 67, 67, 65] ++ u32le 0 ++ u32le 158 ++
    ([0, 216, 65, 0] ++ zeros 56) ++ u32le 0 ++ u32le 0 ++
  (u32le 136 ++ u32le 1 ++ u32le 0 ++ u32le 0 ++ u32le 156 ++ u32le 2 ++
    u32le 0 ++ u32le 0 ++ u32le 0 ++ u32le 5 ++ u32le 0 ++ u32le 5 ++ u32le 0) ++
  (u32le 0 ++ u32le 0 ++ u32le 0 ++ u32le 1 ++ u32le 0) ++
  [65, 0]

/-- A version-17 buffer whose single metrics-entry filename is a lone high
surrogate (`0xD800`): invalid as strict UTF-16. Total size 158. -/
def exBufBadFilename : List Nat :=
  u32le 17 ++ [83, 67, 67, 65] ++ u32le 0 ++ u32le 158 ++
    ([69, 0, 88, 0] ++ zeros 56) ++ u32le 0 ++ u32le 0 ++
  (u32le 136 ++ u32le 1 ++ u32le 0 ++ u32le 0 ++ u32le 156 ++ u32le 2 ++
    u32le 0 ++ u32le 0 ++ u32le 0 ++ u32le 5 ++ u32le 0 ++ u32le 5 ++ u32le 0) ++
  (u32le 0 ++ u32le 0 ++ u32le 0 ++ u32le 1 ++ u32le 0) ++
  [0, 216]

/-- An 84-byte buffer whose version field is 99, an unsupported version. -/
def exBufBadVersion : List Nat :=
  u32le 99 ++ zeros 80

/-- A default `Prefetch` value, used only to extract decode results of the
concrete example buffers. -/
def defaultPrefetch : Prefetch :=
  ⟨⟨0, [], 0, 0, [], 0, 0⟩,
   .v17 ⟨0, 0, 0, 0, 0, 0, 0, 0, 0, 0, 0, 0, 0⟩, []⟩

/-- The decode result of `exBuf23`, extracted as a concrete `Prefetch`. -/
def exP23 : Prefetch :=
  ((decodeBuffer exBuf23).toOption).getD defaultPrefetch

/-- The decode result of `exBuf17`, extracted as a concrete `Prefetch`. -/
def exP17 : Prefetch :=
  ((decodeBuffer exBuf17).toOption).getD defaultPrefetch

/-- A minimal compressed-envelope source: the `"MAM\x04"` signature followed
by the detect header's size field. -/
def exEnvelope : List Nat := mamSignature ++ [0, 0, 0, 0]

/-! ### Helper lemmas about the byte-level readers -/

theorem readExact_some {buf : List Nat} {off len : Nat} {s : List Nat}
    (h : readExact buf off len = some s) :
    s = readBytes buf off len ∧ off + len ≤ buf.length := by
  unfold readExact at h
  by_cases hle : off + len ≤ buf.length
  · rw [if_pos hle] at h
    exact ⟨(Option.some.inj h).symm, hle⟩
  · rw [if_neg hle] at h
    cases h

theorem readExact_none {buf : List Nat} {off len : Nat}
    (h : buf.length < off + len) : readExact buf off len = none := by
  unfold readExact
  rw [if_neg (by omega)]

theorem readBytes_drop_take (buf : List Nat) (off len k sub : Nat)
    (h : k + sub ≤ len) :
    ((readBytes buf off len).drop k).take sub = readBytes buf (off + k) sub := by
  unfold readBytes
  rw [List.drop_take, List.drop_drop, List.take_take,
    Nat.min_eq_left (by omega : sub ≤ len - k)]

theorem readExact_sub {buf s : List Nat} {off len : Nat}
    (h : readExact buf off len = some s) (k sub : Nat) (hk : k + sub ≤ len) :
    (s.drop k).take sub = readBytes buf (off + k) sub := by
  rw [(readExact_some h).1, readBytes_drop_take buf off len k sub hk]

theorem fieldU32_readExact {buf s : List Nat} {off len : Nat}
    (h : readExact buf off len = some s) (k : Nat) (hk : k + 4 ≤ len) :
    fieldU32 s k = u32At buf (off + k) := by
  unfold fieldU32 u32At
  rw [readExact_sub h k 4 hk]

theorem fieldU64_readExact {buf s : List Nat} {off len : Nat}
    (h : readExact buf off len = some s) (k : Nat) (hk : k + 8 ≤ len) :
    fieldU64 s k = u64At buf (off + k) := by
  unfold fieldU64 u64At
  rw [readExact_sub h k 8 hk]

/-! ### Helper lemmas about the structure parsers -/

theorem parseHeader_ok {buf : List Nat} {hdr : PREFETCH_HEADER}
    (h : parseHeader buf = .ok hdr) :
    84 ≤ buf.length ∧ hdr.version = u32At buf 0 ∧
    hdr.signature = readBytes buf 4 4 ∧ hdr.unknown = u32At buf 8 ∧
    hdr.size = u32At buf 12 ∧ hdr.name = readBytes buf 16 60 ∧
    hdr.hash = u32At buf 76 ∧ hdr.flag = u32At buf 80 := by
  unfold parseHeader at h
  cases hre : readExact buf 0 84 with
  | none => rw [hre] at h; cases h
  | some s =>
    rw [hre] at h
    have hlen := (readExact_some hre).2
    injection h with h
    subst h
    refine ⟨by omega, ?_, ?_, ?_, ?_, ?_, ?_, ?_⟩
    · exact fieldU32_readExact hre 0 (by omega)
    · exact readExact_sub hre 4 4 (by omega)
    · exact fieldU32_readExact hre 8 (by omega)
    · exact fieldU32_readExact hre 12 (by omega)
    · exact readExact_sub hre 16 60 (by omega)
    · exact fieldU32_readExact hre 76 (by omega)
    · exact fieldU32_readExact hre 80 (by omega)

theorem parseHeader_short {buf : List Nat} (h : buf.length < 84) :
    parseHeader buf = .error .truncated := by
  unfold parseHeader
  rw [readExact_none (by omega)]

theorem fileInfoSize_ge (v : Nat) : 52 ≤ fileInfoSize v := by
  unfold fileInfoSize
  by_cases h17 : v = 17
  · rw [if_pos h17]
  · rw [if_neg h17]
    by_cases h23 : v = 23
    · rw [if_pos h23]; omega
    · rw [if_neg h23]; omega

theorem parseFileInfo_common (v : Nat) (s : List Nat) :
    (parseFileInfo v s).metrics_array_offset = fieldU32 s 0 ∧
    (parseFileInfo v s).number_of_file_metrics_entries = fieldU32 s 4 ∧
    (parseFileInfo v s).filename_strings_offset = fieldU32 s 16 := by
  unfold parseFileInfo
  by_cases h17 : v = 17
  · simp [h17, FileInfo.metrics_array_offset,
      FileInfo.number_of_file_metrics_entries, FileInfo.filename_strings_offset]
  · by_cases h23 : v = 23 <;>
      simp [h17, h23, FileInfo.metrics_array_offset,
        FileInfo.number_of_file_metrics_entries, FileInfo.filename_strings_offset]

theorem parseMetricsEntry_fields (v : Nat) (s : List Nat) :
    (parseMetricsEntry v s).filename_string_offset = fieldU32 s (entryFnOffOff v) ∧
    (parseMetricsEntry v s).filename_string_number_of_characters
      = fieldU32 s (entryChrOff v) := by
  unfold parseMetricsEntry entryFnOffOff entryChrOff
  by_cases h17 : v = 17 <;>
    simp [h17, MetricsEntry.filename_string_offset,
      MetricsEntry.filename_string_number_of_characters]

theorem entry_field_bounds (v : Nat) :
    entryFnOffOff v + 4 ≤ metricsEntrySize v ∧
    entryChrOff v + 4 ≤ metricsEntrySize v := by
  unfold entryFnOffOff entryChrOff metricsEntrySize
  by_cases h17 : v = 17 <;> simp [h17]

theorem decodeBuffer_ok {buf : List Nat} {p : Prefetch}
    (h : decodeBuffer buf = .ok p) :
    ∃ s, parseHeader buf = .ok p.header ∧
      supportedVersion p.header.version ∧
      readExact buf 84 (fileInfoSize p.header.version) = some s ∧
      p.fn = parseFileInfo p.header.version s ∧
      parseMetricsLoop buf p.header.version p.fn.filename_strings_offset
        p.fn.metrics_array_offset p.fn.number_of_file_metrics_entries
        = .ok p.metrics := by
  unfold decodeBuffer at h
  cases hh : parseHeader buf with
  | error e => rw [hh] at h; cases h
  | ok hdr =>
    rw [hh] at h
    dsimp only at h
    by_cases hsup : supportedVersion hdr.version
    · rw [if_pos hsup] at h
      cases hre : readExact buf 84 (fileInfoSize hdr.version) with
      | none => rw [hre] at h; cases h
      | some s =>
        rw [hre] at h
        dsimp only at h
        cases hml : parseMetricsLoop buf hdr.version
            (parseFileInfo hdr.version s).filename_strings_offset
            (parseFileInfo hdr.version s).metrics_array_offset
            (parseFileInfo hdr.version s).number_of_file_metrics_entries with
        | error e => rw [hml] at h; cases h
        | ok ms =>
          rw [hml] at h
          dsimp only at h
          injection h with h
          subst h
          exact ⟨s, rfl, hsup, hre, rfl, hml⟩
    · rw [if_neg hsup] at h
      cases h

theorem parseMetricsLoop_ok {buf : List Nat} {v fso : Nat} :
    ∀ {n pos ms}, parseMetricsLoop buf v fso pos n = .ok ms →
      ms.length = n ∧
      (∀ k, k < n →
        pos + metricsEntrySize v * k + metricsEntrySize v ≤ buf.length) ∧
      (∀ k (hk : k < ms.length),
        utf16leStrict (readBytes buf
          (fso + u32At buf (pos + metricsEntrySize v * k + entryFnOffOff v))
          (u32At buf (pos + metricsEntrySize v * k + entryChrOff v) * 2))
          = some (ms.get ⟨k, hk⟩)) := by
  intro n
  induction n with
  | zero =>
    intro pos ms h
    unfold parseMetricsLoop at h
    injection h with h
    subst h
    exact ⟨rfl, fun k hk => absurd hk (by omega), fun k hk => absurd hk (by simp)⟩
  | succ n ih =>
    intro pos ms h
    unfold parseMetricsLoop at h
    cases hre : readExact buf pos (metricsEntrySize v) with
    | none => rw [hre] at h; cases h
    | some s =>
      rw [hre] at h
      cases hdec : utf16leStrict (readBytes buf
          (fso + (parseMetricsEntry v s).filename_string_offset)
          ((parseMetricsEntry v s).filename_string_number_of_characters * 2)) with
      | none => simp only [hdec] at h; cases h
      | some name =>
        simp only [hdec] at h
        cases hrec : parseMetricsLoop buf v fso (pos + metricsEntrySize v) n with
        | error e => rw [hrec] at h; cases h
        | ok ms' =>
          rw [hrec] at h
          injection h with h
          subst h
          obtain ⟨hlen', hbnd', hfn'⟩ := ih hrec
          have hread := (readExact_some hre).2
          have hef := parseMetricsEntry_fields v s
          have heb := entry_field_bounds v
          refine ⟨by simp [hlen'], ?_, ?_⟩
          · intro k hk
            cases k with
            | zero => omega
            | succ k =>
              have := hbnd' k (by omega)
              have : pos + metricsEntrySize v + metricsEntrySize v * k
                  = pos + metricsEntrySize v * (k + 1) := by ring
              omega
          · intro k hk
            cases k with
            | zero =>
              have h1 : (parseMetricsEntry v s).filename_string_offset
                  = u32At buf (pos + metricsEntrySize v * 0 + entryFnOffOff v) := by
                rw [hef.1, fieldU32_readExact hre (entryFnOffOff v) heb.1]
                ring_nf
              have h2 : (parseMetricsEntry v s).filename_string_number_of_characters
                  = u32At buf (pos + metricsEntrySize v * 0 + entryChrOff v) := by
                rw [hef.2, fieldU32_readExact hre (entryChrOff v) heb.2]
                ring_nf
              rw [← h1, ← h2]
              exact hdec
            | succ k =>
              have hk' : k < ms'.length := by
                simp at hk
                omega
              have := hfn' k hk'
              have harith1 : pos + metricsEntrySize v + metricsEntrySize v * k
                    + entryFnOffOff v
                  = pos + metricsEntrySize v * (k + 1) + entryFnOffOff v := by ring
              have harith2 : pos + metricsEntrySize v + metricsEntrySize v * k
                    + entryChrOff v
                  = pos + metricsEntrySize v * (k + 1) + entryChrOff v := by ring
              rw [harith1, harith2] at this
              exact this

theorem parseHeader_of_long {buf : List Nat} (h84 : 84 ≤ buf.length) :
    parseHeader buf = .ok {
      version := u32At buf 0
      signature := readBytes buf 4 4
      unknown := u32At buf 8
      size := u32At buf 12
      name := readBytes buf 16 60
      hash := u32At buf 76
      flag := u32At buf 80 } := by
  have hre : readExact buf 0 84 = some (readBytes buf 0 84) := by
    unfold readExact
    rw [if_pos (by omega)]
  unfold parseHeader
  rw [hre]
  dsimp only
  congr 1
  have hsub : ∀ k sub, k + sub ≤ 84 →
      ((readBytes buf 0 84).drop k).take sub = readBytes buf k sub := by
    intro k sub hk
    have := readBytes_drop_take buf 0 84 k sub hk
    simpa using this
  simp only [PREFETCH_HEADER.mk.injEq]
  unfold fieldU32 u32At
  exact ⟨congrArg leNat (hsub 0 4 (by omega)), hsub 4 4 (by omega),
    congrArg leNat (hsub 8 4 (by omega)), congrArg leNat (hsub 12 4 (by omega)),
    hsub 16 60 (by omega), congrArg leNat (hsub 76 4 (by omega)),
    congrArg leNat (hsub 80 4 (by omega))⟩

/-! ### Claim theorems -/

/-- Claim C3: for every buffer long enough to contain the outer header whose
version field is not in `{17, 23, 30, 31}`, the structured decoder always
fails with the UnsupportedVersion error and never produces a decoded
result. -/
theorem prefetch_unsupported_version (buf : List Nat)
    (hlen : 84 ≤ buf.length) (hv : ¬ supportedVersion (u32At buf 0)) :
    decodeBuffer buf = .error .unsupportedVersion := by
  unfold decodeBuffer
  rw [parseHeader_of_long hlen]
  dsimp only
  rw [if_neg hv]

/-- Witness for `prefetch_unsupported_version`: an 84-byte buffer with
version field 99 fails with UnsupportedVersion. -/
theorem prefetch_unsupported_version_witness :
    decodeBuffer exBufBadVersion = .error .unsupportedVersion :=
  prefetch_unsupported_version exBufBadVersion (by decide) (by decide)

/-- Claim C1 (amended): for every successfully decoded prefetch file, the
compact-shape output contains exactly ONE entry (not one per referenced
file); that single entry carries the full referenced-file list and all run
timestamps (the latest in `ts` and every previous one in `previousruns`). -/
theorem prefetch_compact_single_entry (buf : List Nat) (p : Prefetch)
    (e : List Nat) (_h : decodeBuffer buf = .ok p) :
    (compactRecords p e).length = 1 ∧
    ∀ r ∈ compactRecords p e,
      r.linkedfiles = p.metrics ∧ r.ts = p.latest_timestamp ∧
      r.previousruns = p.previous_timestamps ∧
      (r.ts :: r.previousruns).length = 1 + p.previous_timestamps.length := by
  refine ⟨rfl, ?_⟩
  intro r hr
  have : r = {
      ts := p.latest_timestamp
      filename := p.shortName
      prefetch := e
      linkedfiles := p.metrics
      runcount := p.fn.run_count
      previousruns := p.previous_timestamps } := by
    simpa [compactRecords] using hr
  subst this
  exact ⟨rfl, rfl, rfl, by simp [Nat.add_comm]⟩

/-- Witness for `prefetch_compact_single_entry` at the concrete version-17
buffer. -/
theorem prefetch_compact_single_entry_witness :
    (compactRecords exP17 []).length = 1 :=
  (prefetch_compact_single_entry exBuf17 exP17 [] (by rfl)).1

/-- Claim C1 counterexample: the concrete version-17 buffer decodes with two
referenced files, yet its compact-shape output has one entry, not two. -/
theorem prefetch_compact_count_counterexample :
    (decodeBuffer exBuf17).map
      (fun p => (p.metrics.length, (compactRecords p []).length)) = .ok (2, 1) := by
  rfl

/-- Claim C2 (amended): structure reads fail with TruncatedOrOutOfBounds when
they would pass the end of the buffer, so a successful decode implies the
file-information block and every metrics-array entry were fully in bounds and
the metrics list is complete (never partial); truncating the concrete valid
version-17 buffer in the middle of its metrics array yields the truncation
error. Filename-string reads, by contrast, silently truncate (see the
counterexample). -/
theorem prefetch_truncation_complete_metrics (buf : List Nat) (p : Prefetch)
    (h : decodeBuffer buf = .ok p) :
    (84 + fileInfoSize p.header.version ≤ buf.length ∧
     p.metrics.length = p.fn.number_of_file_metrics_entries ∧
     (∀ k, k < p.fn.number_of_file_metrics_entries →
       p.fn.metrics_array_offset + metricsEntrySize p.header.version * k
         + metricsEntrySize p.header.version ≤ buf.length)) ∧
    decodeBuffer (exBuf17.take 150) = .error .truncated := by
  obtain ⟨s, hph, hsup, hre, hfn, hml⟩ := decodeBuffer_ok h
  obtain ⟨hlen, hbnd, -⟩ := parseMetricsLoop_ok hml
  exact ⟨⟨(readExact_some hre).2, hlen, hbnd⟩, by rfl⟩

/-- Witness for `prefetch_truncation_complete_metrics` at the concrete version-17
buffer. -/
theorem prefetch_truncation_complete_metrics_witness :
    decodeBuffer (exBuf17.take 150) = .error .truncated :=
  (prefetch_truncation_complete_metrics exBuf17 exP17 (by rfl)).2

/-- Claim C2 counterexample: in `exBufOverread` the single metrics entry
declares a 10-character filename at filename-strings offset 156, so the
required read covers bytes 156..176 of a 160-byte buffer — past its end —
yet decoding succeeds, silently returning the 2 available characters. -/
theorem prefetch_overread_counterexample :
    exBufOverread.length = 160 ∧
    u32At exBufOverread 100 = 156 ∧
    u32At exBufOverread 144 = 0 ∧
    u32At exBufOverread 148 = 10 ∧
    (decodeBuffer exBufOverread).map (fun p => p.metrics) = .ok [[65, 66]] := by
  exact ⟨rfl, rfl, rfl, rfl, rfl⟩

/-- Claim C4: for every successfully decoded buffer of version 23 (resp. 30
or 31), the previous-timestamps list is exactly the conversion of the
non-zero entries of the `last_run_remains` array — the 2 (resp. 7) 64-bit
values at buffer offsets 136, 144, ... — in array order, zero slots
excluded; for version 17 the list is empty regardless of buffer content. -/
theorem prefetch_previous_timestamps_filter (buf : List Nat) (p : Prefetch)
    (h : decodeBuffer buf = .ok p) :
    (p.header.version = 17 → p.previous_timestamps = []) ∧
    (p.header.version = 23 →
      p.previous_timestamps =
        (([u64At buf 136, u64At buf 144]).filter (fun t => t != 0)).map
          wintimestamp) ∧
    ((p.header.version = 30 ∨ p.header.version = 31) →
      p.previous_timestamps =
        (([u64At buf 136, u64At buf 144, u64At buf 152, u64At buf 160,
           u64At buf 168, u64At buf 176, u64At buf 184]).filter
            (fun t => t != 0)).map wintimestamp) := by
  obtain ⟨s, hph, hsup, hre, hfn, hml⟩ := decodeBuffer_ok h
  refine ⟨?_, ?_, ?_⟩
  · intro hv
    rw [hv] at hfn
    simp [Prefetch.previous_timestamps, hfn, parseFileInfo]
  · intro hv
    rw [hv] at hfn hre
    have e1 : fieldU64 s 52 = u64At buf 136 := by
      have := fieldU64_readExact hre 52 (by decide)
      norm_num at this
      exact this
    have e2 : fieldU64 s 60 = u64At buf 144 := by
      have := fieldU64_readExact hre 60 (by decide)
      norm_num at this
      exact this
    simp [Prefetch.previous_timestamps, hfn, parseFileInfo, e1, e2]
  · intro hv
    have hoff : ∀ k, k + 8 ≤ 224 → fieldU64 s k = u64At buf (84 + k) := by
      rcases hv with hv | hv <;> rw [hv] at hre <;>
        exact fun k hk => fieldU64_readExact hre k (by simpa [fileInfoSize] using hk)
    have e1 := hoff 52 (by omega)
    have e2 := hoff 60 (by omega)
    have e3 := hoff 68 (by omega)
    have e4 := hoff 76 (by omega)
    have e5 := hoff 84 (by omega)
    have e6 := hoff 92 (by omega)
    have e7 := hoff 100 (by omega)
    norm_num at e1 e2 e3 e4 e5 e6 e7
    rcases hv with hv | hv <;> rw [hv] at hfn <;>
      simp [Prefetch.previous_timestamps, hfn, parseFileInfo, e1, e2, e3, e4,
        e5, e6, e7]

/-- Witness for `prefetch_previous_timestamps_filter` at the concrete
version-23 buffer, whose previous-run slots are `[7, 0]`. -/
theorem prefetch_previous_timestamps_filter_witness :
    exP23.previous_timestamps
      = (([u64At exBuf23 136, u64At exBuf23 144]).filter (fun t => t != 0)).map
        wintimestamp :=
  (prefetch_previous_timestamps_filter exBuf23 exP23 (by rfl)).2.1 (by rfl)

theorem length_flatten_const {α β : Type} (l : List α) (f : α → List β)
    (m : Nat) (hf : ∀ x, (f x).length = m) :
    ((l.map f).flatten).length = l.length * m := by
  induction l with
  | nil => simp
  | cons a l ih =>
    simp only [List.map_cons, List.flatten_cons, List.length_append, hf, ih,
      List.length_cons]
    rw [Nat.succ_mul]
    omega

/-- Claim C5: for every successfully decoded prefetch file with N referenced
files and M = 1 + (number of previous timestamps) total run timestamps, the
expanded-shape output has exactly N×M entries — the cross product of the
referenced-file list with `[latest] + previous` timestamps — and every entry
carries the same run count. -/
theorem prefetch_expanded_cross_product (buf : List Nat) (p : Prefetch)
    (e : List Nat) (_h : decodeBuffer buf = .ok p) :
    (expandedRecords p e).length
      = p.metrics.length * (1 + p.previous_timestamps.length) ∧
    (∀ r ∈ expandedRecords p e, r.runcount = p.fn.run_count ∧
      r.linkedfile ∈ p.metrics ∧
      r.ts ∈ p.latest_timestamp :: p.previous_timestamps) ∧
    (∀ f ∈ p.metrics, ∀ d ∈ p.latest_timestamp :: p.previous_timestamps,
      ({ ts := d, filename := p.shortName, prefetch := e, linkedfile := f,
         runcount := p.fn.run_count } : PrefetchRecord)
        ∈ expandedRecords p e) := by
  refine ⟨?_, ?_, ?_⟩
  · exact length_flatten_const p.metrics _ (1 + p.previous_timestamps.length)
      (fun x => by simp [Nat.add_comm])
  · intro r hr
    unfold expandedRecords at hr
    rw [List.mem_flatten] at hr
    obtain ⟨sub, hsub, hrsub⟩ := hr
    rw [List.mem_map] at hsub
    obtain ⟨f, hf, rfl⟩ := hsub
    rw [List.mem_map] at hrsub
    obtain ⟨d, hd, rfl⟩ := hrsub
    exact ⟨rfl, hf, hd⟩
  · intro f hf d hd
    unfold expandedRecords
    rw [List.mem_flatten]
    exact ⟨_, List.mem_map.mpr ⟨f, hf, rfl⟩, List.mem_map.mpr ⟨d, hd, rfl⟩⟩

/-- Witness for `prefetch_expanded_cross_product` at the concrete version-23
buffer (1 referenced file, 2 run timestamps). -/
theorem prefetch_expanded_cross_product_witness :
    (expandedRecords exP23 []).length
      = exP23.metrics.length * (1 + exP23.previous_timestamps.length) :=
  (prefetch_expanded_cross_product exBuf23 exP23 [] (by rfl)).1

/-- Claim C6: for every successfully decoded buffer, the referenced-files
list has one element per metrics entry (its length is the entry count read
at buffer offset 88) and is order-preserving: the Kth element is exactly the
strict UTF-16-LE decoding of the bytes read at
`filename_strings_offset + entry.filename_string_offset` (both read directly
from the buffer) with length `entry.filename_string_number_of_characters * 2`
bytes. -/
theorem prefetch_filename_resolution_order (buf : List Nat) (p : Prefetch)
    (h : decodeBuffer buf = .ok p) :
    p.metrics.length = u32At buf 88 ∧
    ∀ k (hk : k < p.metrics.length),
      utf16leStrict (readBytes buf
        (u32At buf 100 + u32At buf
          (u32At buf 84 + metricsEntrySize p.header.version * k
            + entryFnOffOff p.header.version))
        (u32At buf
          (u32At buf 84 + metricsEntrySize p.header.version * k
            + entryChrOff p.header.version) * 2))
        = some (p.metrics.get ⟨k, hk⟩) := by
  obtain ⟨s, hph, hsup, hre, hfn, hml⟩ := decodeBuffer_ok h
  obtain ⟨hlen, hbnd, hfname⟩ := parseMetricsLoop_ok hml
  have hsz := fileInfoSize_ge p.header.version
  have hcommon := parseFileInfo_common p.header.version s
  have hmao : p.fn.metrics_array_offset = u32At buf 84 := by
    rw [hfn, hcommon.1]
    have := fieldU32_readExact hre 0 (by omega)
    norm_num at this
    exact this
  have hcnt : p.fn.number_of_file_metrics_entries = u32At buf 88 := by
    rw [hfn, hcommon.2.1]
    have := fieldU32_readExact hre 4 (by omega)
    norm_num at this
    exact this
  have hfso : p.fn.filename_strings_offset = u32At buf 100 := by
    rw [hfn, hcommon.2.2]
    have := fieldU32_readExact hre 16 (by omega)
    norm_num at this
    exact this
  constructor
  · rw [hlen, hcnt]
  · intro k hk
    have := hfname k hk
    rw [hmao, hfso] at this
    exact this

/-- Witness for `prefetch_filename_resolution_order` at the concrete
version-17 buffer. -/
theorem prefetch_filename_resolution_order_witness :
    exP17.metrics.length = u32At exBuf17 88 :=
  (prefetch_filename_resolution_order exBuf17 exP17 (by rfl)).1

/-- Claim C7: a byte source whose first 4 bytes are the `"MAM\x04"` envelope
signature is decompressed before structured decoding, and when the payload
is a valid version-23 buffer the result is identical to decoding that buffer
directly without the envelope; a source without the signature is decoded
raw, never decompressed (the decompression collaborator is irrelevant). -/
theorem prefetch_envelope_equivalence (d : List Nat → Option (List Nat))
    (buf payload : List Nat) (p : Prefetch)
    (hsig : buf.take 4 = mamSignature) (hlen : 8 ≤ buf.length)
    (hd : d (buf.drop 8) = some payload)
    (hp : decodeBuffer payload = .ok p) (hv : p.header.version = 23) :
    decodePrefetch d buf = .ok p ∧
    decodePrefetch d payload = .ok p ∧
    (∀ (d' : List Nat → Option (List Nat)) (b : List Nat),
      b.take 4 ≠ mamSignature → decodePrefetch d' b = decodeBuffer b) := by
  have hraw : ∀ (d' : List Nat → Option (List Nat)) (b : List Nat),
      b.take 4 ≠ mamSignature → decodePrefetch d' b = decodeBuffer b := by
    intro d' b hb
    unfold decodePrefetch
    by_cases hlen8 : b.length < 8
    · rw [if_pos hlen8]
      have hshort : decodeBuffer b = .error .truncated := by
        unfold decodeBuffer
        rw [parseHeader_short (by omega)]
      rw [hshort]
    · rw [if_neg hlen8, if_neg hb]
  obtain ⟨s, hph, -, -, -, -⟩ := decodeBuffer_ok hp
  have hver := (parseHeader_ok hph).2.1
  have hne : payload.take 4 ≠ mamSignature := by
    intro heq
    have h23 : u32At payload 0 = 23 := by rw [← hver, hv]
    have hbig : u32At payload 0 = leNat mamSignature := by
      unfold u32At readBytes
      rw [List.drop_zero, heq]
    rw [h23] at hbig
    simp [mamSignature, leNat] at hbig
  refine ⟨?_, ?_, hraw⟩
  · unfold decodePrefetch
    rw [if_neg (by omega), if_pos hsig, hd]
    exact hp
  · rw [hraw d payload hne]
    exact hp

/-- Witness for `prefetch_envelope_equivalence`: a concrete envelope whose
payload decompresses (via a stub collaborator) to the concrete version-23
buffer yields exactly its direct decode. -/
theorem prefetch_envelope_equivalence_witness :
    decodePrefetch (fun _ => some exBuf23) exEnvelope = .ok exP23 :=
  (prefetch_envelope_equivalence (fun _ => some exBuf23) exEnvelope exBuf23
    exP23 (by rfl) (by decide) (by rfl) (by rfl) (by rfl)).1

/-- Claim C9 (amended): name decoding is asymmetric — the executable short
name is decoded leniently (invalid UTF-16 sequences are dropped rather than
rejected, never failing the decode: the concrete buffer with an unpaired
surrogate in its name field still decodes), while filenames inside the
metrics array are decoded strictly: every referenced file of a successful
decode is the strict UTF-16 decoding of its bytes, and a metrics-entry
filename that is not valid UTF-16 fails the decode with EncodingFailure. -/
theorem prefetch_utf16_asymmetry (buf : List Nat) (p : Prefetch)
    (h : decodeBuffer buf = .ok p) :
    (∀ k (hk : k < p.metrics.length),
      ∃ bs, utf16leStrict bs = some (p.metrics.get ⟨k, hk⟩)) ∧
    utf16leStrict (readBytes exBufBadName 16 60) = none ∧
    (decodeBuffer exBufBadName).map (fun q => q.shortName) = .ok [65] ∧
    decodeBuffer exBufBadFilename = .error .encodingError := by
  obtain ⟨s, hph, hsup, hre, hfn, hml⟩ := decodeBuffer_ok h
  obtain ⟨-, -, hfname⟩ := parseMetricsLoop_ok hml
  exact ⟨fun k hk => ⟨_, hfname k hk⟩, by rfl, by rfl, by rfl⟩

/-- Witness for `prefetch_utf16_asymmetry` at the concrete version-17
buffer. -/
theorem prefetch_utf16_asymmetry_witness :
    decodeBuffer exBufBadFilename = .error .encodingError :=
  (prefetch_utf16_asymmetry exBuf17 exP17 (by rfl)).2.2.2

/-- Claim C9 counterexample: the name field of `exBufBadName` starts with an
unpaired high surrogate followed by "A"; it is invalid strict UTF-16, and
the emitted short name is "A" (`[65]`) — the invalid sequence was dropped,
not replaced with the substitution character (U+FFFD = 65533) as the claim's
"replaced rather than rejected" wording would require. -/
theorem prefetch_replacement_counterexample :
    utf16leStrict (readBytes exBufBadName 16 60) = none ∧
    (decodeBuffer exBufBadName).map (fun p => p.shortName) = .ok [65] ∧
    ([65] : List Nat) ≠ [65533, 65] :=
  ⟨rfl, rfl, by decide⟩

/-- Claim C10: for every successfully decoded prefetch file, the emitted
executable short name is the outer header's 60-byte name field (buffer bytes
16..76) decoded as UTF-16-LE with undecodable sequences dropped, then
truncated at the first NUL character; both output shapes carry exactly this
name and no NUL — in particular no trailing null padding — ever appears in
it. -/
theorem prefetch_short_name_nul_truncated (buf : List Nat) (p : Prefetch)
    (e : List Nat) (h : decodeBuffer buf = .ok p) :
    p.shortName
      = (utf16leIgnore (readBytes buf 16 60)).takeWhile (fun c => c != 0) ∧
    (∀ r ∈ compactRecords p e, r.filename = p.shortName) ∧
    (∀ r ∈ expandedRecords p e, r.filename = p.shortName) ∧
    (0 : Nat) ∉ p.shortName := by
  obtain ⟨s, hph, -, -, -, -⟩ := decodeBuffer_ok h
  have hname : p.header.name = readBytes buf 16 60 :=
    (parseHeader_ok hph).2.2.2.2.2.1
  refine ⟨?_, ?_, ?_, ?_⟩
  · unfold Prefetch.shortName
    rw [hname]
  · intro r hr
    simp only [compactRecords, List.mem_singleton] at hr
    subst hr
    rfl
  · intro r hr
    unfold expandedRecords at hr
    rw [List.mem_flatten] at hr
    obtain ⟨sub, hsub, hrsub⟩ := hr
    rw [List.mem_map] at hsub
    obtain ⟨f, hf, rfl⟩ := hsub
    rw [List.mem_map] at hrsub
    obtain ⟨dt, hdt, rfl⟩ := hrsub
    rfl
  · intro hmem
    unfold Prefetch.shortName at hmem
    have := List.mem_takeWhile_imp hmem
    simp at this

/-- Witness for `prefetch_short_name_nul_truncated` at the concrete
version-17 buffer. -/
theorem prefetch_short_name_nul_truncated_witness :
    exP17.shortName
      = (utf16leIgnore (readBytes exBuf17 16 60)).takeWhile (fun c => c != 0) :=
  (prefetch_short_name_nul_truncated exBuf17 exP17 [] (by rfl)).1

/-! ### Signature-field congruence (claim C8) -/

theorem readBytes_congr {buf buf' : List Nat}
    (hdrop : buf.drop 8 = buf'.drop 8) {off : Nat} (hoff : 8 ≤ off)
    (len : Nat) : readBytes buf off len = readBytes buf' off len := by
  unfold readBytes
  have h1 : buf.drop off = (buf.drop 8).drop (off - 8) := by
    rw [List.drop_drop]
    congr 1
    omega
  have h2 : buf'.drop off = (buf'.drop 8).drop (off - 8) := by
    rw [List.drop_drop]
    congr 1
    omega
  rw [h1, h2, hdrop]

theorem readExact_congr {buf buf' : List Nat}
    (hdrop : buf.drop 8 = buf'.drop 8) (hlen : buf.length = buf'.length)
    {off : Nat} (hoff : 8 ≤ off) (len : Nat) :
    readExact buf off len = readExact buf' off len := by
  unfold readExact
  rw [hlen, readBytes_congr hdrop hoff len]

theorem u32At_congr {buf buf' : List Nat}
    (hdrop : buf.drop 8 = buf'.drop 8) {off : Nat} (hoff : 8 ≤ off) :
    u32At buf off = u32At buf' off := by
  unfold u32At
  rw [readBytes_congr hdrop hoff]

theorem parseMetricsLoop_congr {buf buf' : List Nat} {v fso : Nat}
    (hdrop : buf.drop 8 = buf'.drop 8) (hlen : buf.length = buf'.length)
    (hfso : 8 ≤ fso) :
    ∀ (n pos : Nat), 8 ≤ pos →
      parseMetricsLoop buf v fso pos n = parseMetricsLoop buf' v fso pos n := by
  intro n
  induction n with
  | zero => intro pos _; rfl
  | succ n ih =>
    intro pos hpos
    unfold parseMetricsLoop
    rw [readExact_congr hdrop hlen hpos]
    cases readExact buf' pos (metricsEntrySize v) with
    | none => rfl
    | some s =>
      dsimp only
      rw [readBytes_congr hdrop
        (show 8 ≤ fso + (parseMetricsEntry v s).filename_string_offset by omega)
        ((parseMetricsEntry v s).filename_string_number_of_characters * 2)]
      simp only [ih (pos + metricsEntrySize v) (by omega)]

theorem decodeBuffer_signature_congr {buf buf' : List Nat} (e : List Nat)
    (hlen : buf.length = buf'.length) (htake : buf.take 4 = buf'.take 4)
    (hdrop : buf.drop 8 = buf'.drop 8)
    (hmao : 8 ≤ u32At buf 84) (hfso : 8 ≤ u32At buf 100) :
    (decodeBuffer buf).map (fun p => (compactRecords p e, expandedRecords p e))
      = (decodeBuffer buf').map
        (fun p => (compactRecords p e, expandedRecords p e)) := by
  by_cases h84 : 84 ≤ buf.length
  case neg =>
    have hb : decodeBuffer buf = .error .truncated := by
      unfold decodeBuffer
      rw [parseHeader_short (by omega)]
    have hb' : decodeBuffer buf' = .error .truncated := by
      unfold decodeBuffer
      rw [parseHeader_short (by omega)]
    rw [hb, hb']
  case pos =>
    have h84' : 84 ≤ buf'.length := by omega
    have hu0 : u32At buf 0 = u32At buf' 0 := by
      unfold u32At readBytes
      rw [List.drop_zero, List.drop_zero, htake]
    have hu8 : ∀ off, 8 ≤ off → u32At buf off = u32At buf' off :=
      fun off hoff => u32At_congr hdrop hoff
    have hn : readBytes buf 16 60 = readBytes buf' 16 60 :=
      readBytes_congr hdrop (by omega) 60
    unfold decodeBuffer
    rw [parseHeader_of_long h84, parseHeader_of_long h84']
    dsimp only
    rw [hu0, hu8 8 (by omega), hu8 12 (by omega), hn, hu8 76 (by omega),
      hu8 80 (by omega)]
    by_cases hsup : supportedVersion (u32At buf' 0)
    case neg =>
      rw [if_neg hsup, if_neg hsup]
    case pos =>
      rw [if_pos hsup, if_pos hsup,
        readExact_congr hdrop hlen (show (8:Nat) ≤ 84 by omega)
          (fileInfoSize (u32At buf' 0))]
      cases hs : readExact buf' 84 (fileInfoSize (u32At buf' 0)) with
      | none => rfl
      | some s =>
        dsimp only
        have hcommon := parseFileInfo_common (u32At buf' 0) s
        have hsz := fileInfoSize_ge (u32At buf' 0)
        have hmaoeq : (parseFileInfo (u32At buf' 0) s).metrics_array_offset
            = u32At buf' 84 := by
          rw [hcommon.1]
          have := fieldU32_readExact hs 0 (by omega)
          norm_num at this
          exact this
        have hfsoeq : (parseFileInfo (u32At buf' 0) s).filename_strings_offset
            = u32At buf' 100 := by
          rw [hcommon.2.2]
          have := fieldU32_readExact hs 16 (by omega)
          norm_num at this
          exact this
        have hmao' : 8 ≤ (parseFileInfo (u32At buf' 0) s).metrics_array_offset := by
          rw [hmaoeq, ← hu8 84 (by omega)]
          exact hmao
        have hfso' : 8 ≤ (parseFileInfo (u32At buf' 0) s).filename_strings_offset := by
          rw [hfsoeq, ← hu8 100 (by omega)]
          exact hfso
        rw [parseMetricsLoop_congr hdrop hlen hfso'
          ((parseFileInfo (u32At buf' 0) s).number_of_file_metrics_entries)
          ((parseFileInfo (u32At buf' 0) s).metrics_array_offset) hmao']
        cases parseMetricsLoop buf' (u32At buf' 0)
            (parseFileInfo (u32At buf' 0) s).filename_strings_offset
            (parseFileInfo (u32At buf' 0) s).metrics_array_offset
            (parseFileInfo (u32At buf' 0) s).number_of_file_metrics_entries with
        | error er => rfl
        | ok ms => rfl

/-- Claim C8 (amended): the outer header's 4-byte signature field (bytes
4..8) is read but never validated against an expected constant, so two
buffers differing only in that field — provided the metrics array and the
filename-strings region do not alias it, i.e. their offsets are at least
8 — decode to the same observable result: same success or failure and
identical compact- and expanded-shape records. (When a crafted buffer's
filename-strings region does overlap bytes 4..8, the signature bytes are
re-read as string data and the outputs can differ; see the
counterexample.) -/
theorem prefetch_signature_not_validated (buf buf' sg e : List Nat)
    (h8 : 8 ≤ buf.length) (hsg : sg.length = 4)
    (hb : buf' = buf.take 4 ++ sg ++ buf.drop 8)
    (hmao : 8 ≤ u32At buf 84) (hfso : 8 ≤ u32At buf 100) :
    (decodeBuffer buf).map (fun p => (compactRecords p e, expandedRecords p e))
      = (decodeBuffer buf').map
        (fun p => (compactRecords p e, expandedRecords p e)) := by
  have ht4 : (buf.take 4).length = 4 := by
    rw [List.length_take]
    omega
  have h48 : (buf.take 4 ++ sg).length = 8 := by
    rw [List.length_append, ht4, hsg]
  have hlen : buf.length = buf'.length := by
    subst hb
    rw [List.length_append, List.length_append, ht4, hsg, List.length_drop]
    omega
  have htake : buf.take 4 = buf'.take 4 := by
    subst hb
    simp [List.take_append_eq_append_take, ht4]
  have hdrop : buf.drop 8 = buf'.drop 8 := by
    subst hb
    simp [List.drop_append_eq_append_drop, ht4, hsg]
  exact decodeBuffer_signature_congr e hlen htake hdrop hmao hfso

/-- Witness for `prefetch_signature_not_validated`: replacing the concrete
version-17 buffer's signature with zero bytes leaves the records
unchanged. -/
theorem prefetch_signature_not_validated_witness :
    (decodeBuffer exBuf17).map
      (fun p => (compactRecords p [], expandedRecords p []))
      = (decodeBuffer (exBuf17.take 4 ++ [0, 0, 0, 0] ++ exBuf17.drop 8)).map
        (fun p => (compactRecords p [], expandedRecords p [])) :=
  prefetch_signature_not_validated exBuf17 _ [0, 0, 0, 0] [] (by decide)
    (by decide) rfl (by decide) (by decide)

/-- Claim C8 counterexample: two buffers that differ only in the signature
field (bytes 4..8) but whose filename-strings offset is 4 — so the single
filename is read from the signature bytes themselves — both decode
successfully, to different referenced-file lists. -/
theorem prefetch_signature_dependence_counterexample :
    exBufAlias [67, 0, 68, 0]
      = (exBufAlias [65, 0, 66, 0]).take 4 ++ [67, 0, 68, 0]
        ++ (exBufAlias [65, 0, 66, 0]).drop 8 ∧
    (decodeBuffer (exBufAlias [65, 0, 66, 0])).map (fun p => p.metrics)
      = .ok [[65, 66]] ∧
    (decodeBuffer (exBufAlias [67, 0, 68, 0])).map (fun p => p.metrics)
      = .ok [[67, 68]] := by
  exact ⟨by decide, rfl, rfl⟩

end PrefetchSpec
